import Mathlib

/-!
Shallow embedding of `packages/playwright-core/src/server/injected/domUtils.ts`.

Nodes are identified by natural numbers.  The host DOM/CSSOM (tree structure,
computed styles, bounding rectangles, the native `checkVisibility` primitive,
selector matching) is an oracle supplied by the host environment; it is
modelled as the fields of the `Dom` structure below, exactly the data the
TypeScript file reads.

The upward-walking loops of the source (`while (element.parentElement)`,
`while (node.parentNode)`, `scope.contains`, `element.closest`, and the outer
loops of `isInsideScope` / `closestCrossShadow`), as well as the recursion of
`isElementVisible` into child nodes, are embedded with an explicit fuel
argument; termination of the source loops is expressed as fuel-independence
of the result once the fuel exceeds the depth bound (claim C8).
-/

namespace DomUtils

/-- A computed-style snapshot; the source reads only `display` and
`visibility` from a `CSSStyleDeclaration`. -/
structure Style where
  display : String
  visibility : String
deriving DecidableEq

/-- A bounding rectangle; the source reads only `width` and `height` of a
`DOMRect`. -/
structure Rect where
  width : Int
  height : Int
deriving DecidableEq

/-- The host-provided DOM state read by `domUtils.ts`:
* `nodeType` — 1 element, 3 text, 9 document, 11 document fragment / shadow root;
* `parentNode` — the plain parent link (a shadow root has no parent);
* `host` — for a shadow-root fragment, its host element (`(pn as ShadowRoot).host`);
* `childNodes` — the direct children of a node in document order
  (the `firstChild` / `nextSibling` chain of the source);
* `ownerDocument` / `hasDefaultView` — `element.ownerDocument` and the
  truthiness of `document.defaultView`;
* `styleMap` — `defaultView.getComputedStyle(element, pseudo)`;
* `checkVisibilityAvailable` — truthiness of `Element.prototype.checkVisibility`;
* `checkVisibility` — result of `element.checkVisibility({checkOpacity: false,
  checkVisibilityCSS: false})`;
* `matchesSel` — the native selector-match primitive backing `element.closest(css)`;
* `nodeName`, `detailsOpen` — `element.nodeName` and `details.open`;
* `boundingRect` — `element.getBoundingClientRect()`;
* `textRect` — bounding rect of a range selecting a text node. -/
structure Dom where
  nodeType : Nat → Nat
  parentNode : Nat → Option Nat
  host : Nat → Option Nat
  childNodes : Nat → List Nat
  ownerDocument : Nat → Option Nat
  hasDefaultView : Nat → Bool
  styleMap : Nat → Option String → Style
  checkVisibilityAvailable : Bool
  checkVisibility : Nat → Bool
  matchesSel : Nat → String → Bool
  nodeName : Nat → String
  detailsOpen : Nat → Bool
  boundingRect : Nat → Rect
  textRect : Nat → Rect

/-- `element.parentElement`: the parent node when it is an element, else none. -/
def parentElement (d : Dom) (n : Nat) : Option Nat :=
  match d.parentNode n with
  | some p => if d.nodeType p = 1 then some p else none
  | none => none

/-- `parentElementOrShadowHost` from the source: the parent element if one
exists; otherwise, if the parent node is a document-fragment (shadow root)
with a host, that host; otherwise none. -/
def parentElementOrShadowHost (d : Dom) (e : Nat) : Option Nat :=
  match parentElement d e with
  | some p => some p
  | none =>
    match d.parentNode e with
    | some pn => if d.nodeType pn = 11 then d.host pn else none
    | none => none

/-- The `while (element.parentElement) element = element.parentElement` climb
inside `enclosingShadowHost`, with fuel bounding the number of steps. -/
def topmostElement (d : Dom) : Nat → Nat → Nat
  | 0, e => e
  | f + 1, e =>
    match parentElement d e with
    | some p => topmostElement d f p
    | none => e

/-- `enclosingShadowHost` from the source: climb to the topmost element of the
local tree, then take `parentElementOrShadowHost` of it. -/
def enclosingShadowHost (d : Dom) (g : Nat) (e : Nat) : Option Nat :=
  parentElementOrShadowHost d (topmostElement d g e)

/-- `scope.contains(n)`: `n` is `scope` or a descendant of `scope`, decided by
walking `parentNode` links upward from `n`, with fuel bounding the walk. -/
def containsNode (d : Dom) : Nat → Nat → Nat → Bool
  | 0, scope, n => scope == n
  | f + 1, scope, n =>
    scope == n ||
      match d.parentNode n with
      | some p => containsNode d f scope p
      | none => false

/-- `element.closest(css)`: the nearest inclusive ancestor element (via
`parentElement` links, never crossing a shadow boundary) matching `css`,
with fuel bounding the walk. -/
def closest (d : Dom) : Nat → Nat → String → Option Nat
  | 0, e, css => if d.matchesSel e css then some e else none
  | f + 1, e, css =>
    if d.matchesSel e css then some e
    else
      match parentElement d e with
      | some p => closest d f p css
      | none => none

/-- `isInsideScope` from the source:
`while (element) { if (scope.contains(element)) return true;
element = enclosingShadowHost(element); } return false`.
`g` is the fuel for the inner upward walks, the first `Nat` argument the fuel
for the outer loop. -/
def isInsideScope (d : Dom) (g : Nat) : Nat → Nat → Option Nat → Bool
  | _, _, none => false
  | 0, _, some _ => false
  | f + 1, scope, some e =>
    containsNode d g scope e || isInsideScope d g f scope (enclosingShadowHost d g e)

/-- `closestCrossShadow` from the source:
`while (element) { const closest = element.closest(css); if (closest) return
closest; element = enclosingShadowHost(element); }`. -/
def closestCrossShadow (d : Dom) (g : Nat) : Nat → Option Nat → String → Option Nat
  | _, none, _ => none
  | 0, some _, _ => none
  | f + 1, some e, css =>
    match closest d g e css with
    | some c => some c
    | none => closestCrossShadow d g f (enclosingShadowHost d g e) css

/-- The `while (node.parentNode) node = node.parentNode` climb inside
`enclosingShadowRootOrDocument`, with fuel. -/
def rootNode (d : Dom) : Nat → Nat → Nat
  | 0, n => n
  | f + 1, n =>
    match d.parentNode n with
    | some p => rootNode d f p
    | none => n

/-- `enclosingShadowRootOrDocument` from the source: walk plain `parentNode`
links to the root; return it when it is a document fragment (11) or a
document (9), else none. -/
def enclosingShadowRootOrDocument (d : Dom) (g : Nat) (e : Nat) : Option Nat :=
  let node := rootNode d g e
  if d.nodeType node = 11 ∨ d.nodeType node = 9 then some node else none

/-- `getElementComputedStyle` from the source:
`element.ownerDocument && element.ownerDocument.defaultView ?
element.ownerDocument.defaultView.getComputedStyle(element, pseudo) :
undefined`. -/
def getElementComputedStyle (d : Dom) (e : Nat) (pseudo : Option String) : Option Style :=
  match d.ownerDocument e with
  | some doc => if d.hasDefaultView doc then some (d.styleMap e pseudo) else none
  | none => none

/-- `isElementStyleVisibilityVisible` from the source.  `g` is fuel for the
`element.closest('details,summary')` walk of the WebKit fallback. -/
def isElementStyleVisibilityVisible (d : Dom) (g : Nat) (e : Nat) (style? : Option Style) :
    Bool :=
  match (match style? with
         | some s => some s
         | none => getElementComputedStyle d e none) with
  | none => true
  | some style =>
    if d.checkVisibilityAvailable then
      if !(d.checkVisibility e) then false
      else if style.visibility ≠ "visible" then false
      else true
    else
      let detailsOrSummary := closest d g e "details,summary"
      if (detailsOrSummary != some e) &&
          (match detailsOrSummary with
           | some x => d.nodeName x == "DETAILS" && !(d.detailsOpen x)
           | none => false) then false
      else if style.visibility ≠ "visible" then false
      else true

/-- `isVisibleTextNode` from the source: select the text node in a range and
test that both dimensions of the range's bounding rect are strictly
positive. -/
def isVisibleTextNode (d : Dom) (n : Nat) : Bool :=
  let rect := d.textRect n
  decide (0 < rect.width) && decide (0 < rect.height)

/-- `isElementVisible` from the source.  `g` is fuel for the upward walks
inside the style check; the first `Nat` argument is fuel for the recursion
into child elements (`display:contents` descent and the inline quirk). -/
def isElementVisible (d : Dom) (g : Nat) : Nat → Nat → Bool
  | 0, _ => false
  | f + 1, e =>
    match getElementComputedStyle d e none with
    | none => true
    | some style =>
      if style.display = "contents" then
        (d.childNodes e).any fun child =>
          (d.nodeType child == 1 && isElementVisible d g f child) ||
          (d.nodeType child == 3 && isVisibleTextNode d child)
      else if !(isElementStyleVisibilityVisible d g e (some style)) then false
      else
        let rect := d.boundingRect e
        let visible := decide (0 < rect.width) && decide (0 < rect.height)
        if !visible && style.display == "inline" && decide (0 < rect.height) then
          (d.childNodes e).any fun child =>
            d.nodeType child == 1 &&
              match getElementComputedStyle d child none with
              | some cs => cs.display == "inline" && isElementVisible d g f child
              | none => false
        else visible

/-- Iterating `enclosingShadowHost` `k` times from `e`; `none` when the host
chain runs out before `k` steps. -/
def hostChainIter (d : Dom) (g : Nat) : Nat → Nat → Option Nat
  | 0, e => some e
  | k + 1, e =>
    match enclosingShadowHost d g e with
    | some h => hostChainIter d g k h
    | none => none

/-- A default host state: a single detached element universe (no parents, no
documents), used as the base of the concrete test states below. -/
def baseDom : Dom where
  nodeType := fun _ => 1
  parentNode := fun _ => none
  host := fun _ => none
  childNodes := fun _ => []
  ownerDocument := fun _ => none
  hasDefaultView := fun _ => false
  styleMap := fun _ _ => ⟨"block", "visible"⟩
  checkVisibilityAvailable := true
  checkVisibility := fun _ => true
  matchesSel := fun _ _ => false
  nodeName := fun _ => "DIV"
  detailsOpen := fun _ => false
  boundingRect := fun _ => ⟨0, 0⟩
  textRect := fun _ => ⟨0, 0⟩

/-- Element 0 lives in a shadow tree (shadow root 1) hosted by element 2,
whose parent is a closed `details` element 3, inside document 4.  The
`checkVisibility` primitive is unavailable. -/
def shadowDom : Dom :=
  { baseDom with
    nodeType := fun n => if n = 1 then 11 else if n = 4 then 9 else 1
    parentNode := fun n =>
      match n with
      | 0 => some 1
      | 2 => some 3
      | 3 => some 4
      | _ => none
    host := fun n => if n = 1 then some 2 else none
    ownerDocument := fun n => if n ≤ 3 then some 4 else none
    hasDefaultView := fun n => n == 4
    checkVisibilityAvailable := false
    matchesSel := fun n css => n == 3 && css == "details,summary"
    nodeName := fun n => if n = 3 then "DETAILS" else "DIV"
    boundingRect := fun _ => ⟨10, 10⟩ }

/-- A depth bound for `shadowDom`: parent and host steps strictly decrease it. -/
def shadowDomRank : Nat → Nat
  | 0 => 4
  | 1 => 3
  | 2 => 2
  | 3 => 1
  | _ => 0

/-- Element 0 whose direct parent is a closed `details` element 3 in document
4, with the `checkVisibility` primitive unavailable (the WebKit fallback
path). -/
def webkitDom : Dom :=
  { baseDom with
    nodeType := fun n => if n = 4 then 9 else 1
    parentNode := fun n =>
      match n with
      | 0 => some 3
      | 3 => some 4
      | _ => none
    ownerDocument := fun n => if n = 0 ∨ n = 3 then some 4 else none
    hasDefaultView := fun n => n == 4
    checkVisibilityAvailable := false
    matchesSel := fun n css => n == 3 && css == "details,summary"
    nodeName := fun n => if n = 3 then "DETAILS" else "DIV"
    boundingRect := fun _ => ⟨10, 10⟩ }

/-- Element 0 in document 1 with a 5×5 box and `visibility:visible`, but the
native `checkVisibility` primitive reports it not rendered. -/
def cvDom : Dom :=
  { baseDom with
    nodeType := fun n => if n = 1 then 9 else 1
    ownerDocument := fun _ => some 1
    hasDefaultView := fun n => n == 1
    checkVisibility := fun _ => false
    boundingRect := fun _ => ⟨5, 5⟩ }

/-- Element 0 with `display:contents`, an element child 1 with a 4×4 box and a
zero-size text child 2, in document 5. -/
def contentsDom : Dom :=
  { baseDom with
    nodeType := fun n => if n = 5 then 9 else if n = 2 then 3 else 1
    childNodes := fun n => if n = 0 then [1, 2] else []
    ownerDocument := fun n => if n ≤ 2 then some 5 else none
    hasDefaultView := fun n => n == 5
    styleMap := fun n _ => if n = 0 then ⟨"contents", "visible"⟩ else ⟨"block", "visible"⟩
    boundingRect := fun n => if n = 1 then ⟨4, 4⟩ else ⟨0, 0⟩ }

/-- Inline element 0 with a zero-width, height-7 box and an inline child 1
with a 5×5 box, in document 5. -/
def inlineDom : Dom :=
  { baseDom with
    nodeType := fun n => if n = 5 then 9 else 1
    childNodes := fun n => if n = 0 then [1] else []
    ownerDocument := fun n => if n ≤ 1 then some 5 else none
    hasDefaultView := fun n => n == 5
    styleMap := fun _ _ => ⟨"inline", "visible"⟩
    boundingRect := fun n => if n = 0 then ⟨0, 7⟩ else ⟨5, 5⟩ }

/-- Element 0 with `display:contents` and `visibility:hidden`, whose
`checkVisibility` oracle answer is false, with a text child 1 of positive
rendered extent, in document 5. -/
def c10Dom : Dom :=
  { baseDom with
    nodeType := fun n => if n = 5 then 9 else if n = 1 then 3 else 1
    childNodes := fun n => if n = 0 then [1] else []
    ownerDocument := fun n => if n ≤ 1 then some 5 else none
    hasDefaultView := fun n => n == 5
    styleMap := fun n _ => if n = 0 then ⟨"contents", "hidden"⟩ else ⟨"block", "visible"⟩
    checkVisibility := fun _ => false
    textRect := fun n => if n = 1 then ⟨3, 4⟩ else ⟨0, 0⟩ }

/-! ## Helper lemmas -/

/-- The outer loop of `isInsideScope` on an absent element is false at every
fuel. -/
theorem isInsideScope_none (d : Dom) (g f scope : Nat) :
    isInsideScope d g f scope none = false := by
  cases f <;> rfl

/-- The outer loop of `closestCrossShadow` on an absent element is none at
every fuel. -/
theorem closestCrossShadow_none (d : Dom) (g f : Nat) (css : String) :
    closestCrossShadow d g f none css = none := by
  cases f <;> rfl

/-- `closest` returns the element itself when it matches, at every fuel. -/
theorem closest_self (d : Dom) (g e : Nat) (css : String)
    (h : d.matchesSel e css = true) : closest d g e css = some e := by
  cases g <;> simp [closest, h]

/-- A resolvable computed style is the one held by the style oracle. -/
theorem getElementComputedStyle_eq_some (d : Dom) (e : Nat) (p : Option String) (s : Style)
    (h : getElementComputedStyle d e p = some s) : s = d.styleMap e p := by
  unfold getElementComputedStyle at h
  cases hod : d.ownerDocument e with
  | none => rw [hod] at h; exact absurd h (by simp)
  | some doc =>
    rw [hod] at h
    by_cases hv : d.hasDefaultView doc <;> simp [hv] at h
    exact h.symm

/-! ## Claim theorems -/

/-- C4: `getElementComputedStyle` returns none exactly when the element has no
owning document or that document has no rendering view; and whenever the
style is unresolvable, both `isElementStyleVisibilityVisible` and
`isElementVisible` return true (fail-open). -/
theorem C4_fail_open (d : Dom) (e : Nat) (p : Option String) (g f : Nat) :
    (getElementComputedStyle d e p = none ↔
      d.ownerDocument e = none ∨
        ∃ doc, d.ownerDocument e = some doc ∧ d.hasDefaultView doc = false) ∧
    (getElementComputedStyle d e none = none →
      isElementStyleVisibilityVisible d g e none = true ∧
        isElementVisible d g (f + 1) e = true) := by
  constructor
  · unfold getElementComputedStyle
    cases hod : d.ownerDocument e with
    | none => simp
    | some doc => by_cases hv : d.hasDefaultView doc <;> simp [hv]
  · intro h
    constructor
    · simp [isElementStyleVisibilityVisible, h]
    · simp [isElementVisible, h]

/-- C4 witness: the base state is a detached element (no owning document);
its style is unresolvable and it is reported visible. -/
theorem C4_witness :
    getElementComputedStyle baseDom 0 none = none ∧
      isElementStyleVisibilityVisible baseDom 3 0 none = true ∧
        isElementVisible baseDom 3 1 0 = true :=
  ⟨by decide, ((C4_fail_open baseDom 0 none 3 0).2 (by decide)).1,
    ((C4_fail_open baseDom 0 none 3 0).2 (by decide)).2⟩

/-- C2: for an element whose resolved display is `contents`, `isElementVisible`
is true exactly when some direct child is an element child that is
recursively visible or a text child with a positive range bounding box; the
element is never judged visible on its own account. -/
theorem C2_display_contents_children (d : Dom) (g f e : Nat) (s : Style)
    (hs : getElementComputedStyle d e none = some s) (hd : s.display = "contents") :
    (isElementVisible d g (f + 1) e = true ↔
      ∃ c ∈ d.childNodes e,
        (d.nodeType c = 1 ∧ isElementVisible d g f c = true) ∨
          (d.nodeType c = 3 ∧ isVisibleTextNode d c = true)) := by
  simp [isElementVisible, hs, hd, List.any_eq_true]

/-- C2 witness: a `display:contents` element with a visible element child and
a zero-size text child is reported visible. -/
theorem C2_witness :
    getElementComputedStyle contentsDom 0 none = some ⟨"contents", "visible"⟩ ∧
      isElementVisible contentsDom 3 2 0 = true :=
  ⟨by decide,
    (C2_display_contents_children contentsDom 3 1 0 ⟨"contents", "visible"⟩ (by decide)
          rfl).mpr
      ⟨1, by decide, Or.inl ⟨by decide, by decide⟩⟩⟩

/-- C3: for an element that passes the style-visibility check, has a
zero-width but positive-height box and `display:inline`, `isElementVisible`
is true exactly when some direct element child has resolved display
`inline` and is recursively visible. -/
theorem C3_inline_quirk (d : Dom) (g f e : Nat) (s : Style)
    (hs : getElementComputedStyle d e none = some s) (hd : s.display = "inline")
    (hsv : isElementStyleVisibilityVisible d g e (some s) = true)
    (hw : (d.boundingRect e).width ≤ 0) (hh : 0 < (d.boundingRect e).height) :
    (isElementVisible d g (f + 1) e = true ↔
      ∃ c ∈ d.childNodes e, d.nodeType c = 1 ∧
        ∃ cs, getElementComputedStyle d c none = some cs ∧ cs.display = "inline" ∧
          isElementVisible d g f c = true) := by
  have hw' : ¬(0 < (d.boundingRect e).width) := by omega
  simp [isElementVisible, hs, hd, hsv, hw', hh, List.any_eq_true]
  constructor
  · rintro ⟨c, hc, hp⟩
    refine ⟨c, hc, ?_⟩
    revert hp
    cases hcs : getElementComputedStyle d c none with
    | none => simp
    | some cs =>
      intro hp
      simp at hp
      exact ⟨hp.1, cs, rfl, hp.2.1, hp.2.2⟩
  · rintro ⟨c, hc, h1, cs, hcs, hdisp, hvis⟩
    exact ⟨c, hc, by simp [hcs, h1, hdisp, hvis]⟩

/-- C3 witness: an inline element with a 0×7 box and an inline child with a
5×5 box is reported visible through the quirk path. -/
theorem C3_witness :
    (inlineDom.boundingRect 0).width ≤ 0 ∧ 0 < (inlineDom.boundingRect 0).height ∧
      isElementVisible inlineDom 3 2 0 = true :=
  ⟨by decide, by decide,
    (C3_inline_quirk inlineDom 3 1 0 ⟨"inline", "visible"⟩ (by decide) rfl (by decide)
          (by decide) (by decide)).mpr
      ⟨1, by decide, by decide, ⟨"inline", "visible"⟩, by decide, rfl, by decide⟩⟩

/-- C7 counterexample: element 0 of `cvDom` has a 5×5 box and
`visibility:visible`, yet the native `checkVisibility` primitive reports it
not rendered, so `isElementVisible` returns false — the claim as stated
fails. -/
theorem C7_counterexample :
    0 < (cvDom.boundingRect 0).width ∧ 0 < (cvDom.boundingRect 0).height ∧
      getElementComputedStyle cvDom 0 none = some (cvDom.styleMap 0 none) ∧
        (cvDom.styleMap 0 none).visibility = "visible" ∧
          isElementVisible cvDom 5 5 0 = false := by
  decide

/-- C7 amended: for an element whose resolved display is not `contents`, that
passes the style-visibility check, and whose bounding box has strictly
positive width and height, `isElementVisible` returns true. -/
theorem C7_amended_geometric_visible (d : Dom) (g f e : Nat) (s : Style)
    (hs : getElementComputedStyle d e none = some s) (hd : s.display ≠ "contents")
    (hsv : isElementStyleVisibilityVisible d g e (some s) = true)
    (hw : 0 < (d.boundingRect e).width) (hh : 0 < (d.boundingRect e).height) :
    isElementVisible d g (f + 1) e = true := by
  simp [isElementVisible, hs, hd, hsv, hw, hh]

/-- C7 witness: element 1 of `contentsDom` has a 4×4 box, passes the style
check and is reported visible. -/
theorem C7_witness :
    0 < (contentsDom.boundingRect 1).width ∧ 0 < (contentsDom.boundingRect 1).height ∧
      isElementVisible contentsDom 3 1 1 = true :=
  ⟨by decide, by decide,
    C7_amended_geometric_visible contentsDom 3 0 1 ⟨"block", "visible"⟩ (by decide)
      (by decide) (by decide) (by decide) (by decide)⟩

/-- C1 counterexample: in `shadowDom` the `checkVisibility` primitive is
unavailable and element 0 sits in a shadow tree whose host chain leads to a
collapsed `details` element 3; `closestCrossShadow` would find that ancestor,
as the claim describes, yet `isElementStyleVisibilityVisible` reports the
element visible, because the source uses the local `element.closest`, which
does not cross the shadow boundary. -/
theorem C1_counterexample :
    shadowDom.checkVisibilityAvailable = false ∧
      closestCrossShadow shadowDom 5 5 (some 0) "details,summary" = some 3 ∧
        shadowDom.nodeName 3 = "DETAILS" ∧ shadowDom.detailsOpen 3 = false ∧
          (3 : Nat) ≠ 0 ∧ (shadowDom.styleMap 0 none).visibility = "visible" ∧
            closest shadowDom 5 0 "details,summary" = none ∧
              isElementStyleVisibilityVisible shadowDom 5 0 none = true := by
  decide

/-- C1 amended: when the native primitive is unavailable and the resolved
visibility is `visible`, `isElementStyleVisibilityVisible` reports the
element not visible exactly when the nearest details-or-summary match found
by the native `closest` within the element's own tree (not crossing shadow
boundaries) is a collapsed `details` distinct from the element itself. -/
theorem C1_amended_details_fallback_local (d : Dom) (g e : Nat) (s : Style)
    (hcv : d.checkVisibilityAvailable = false)
    (hs : getElementComputedStyle d e none = some s)
    (hv : s.visibility = "visible") :
    (isElementStyleVisibilityVisible d g e none = false ↔
      ∃ x, closest d g e "details,summary" = some x ∧ x ≠ e ∧
        d.nodeName x = "DETAILS" ∧ d.detailsOpen x = false) := by
  simp [isElementStyleVisibilityVisible, hs, hcv, hv]
  cases hc : closest d g e "details,summary" with
  | none => simp
  | some x =>
    by_cases hx : x = e
    · subst hx
      simp
    · simp [hx, bne_iff_ne, Ne.symm]

/-- C1 witness: element 0 of `webkitDom` has a closed `details` parent in its
own tree; with the primitive unavailable it is reported not visible. -/
theorem C1_witness :
    webkitDom.checkVisibilityAvailable = false ∧
      closest webkitDom 5 0 "details,summary" = some 3 ∧
        isElementStyleVisibilityVisible webkitDom 5 0 none = false :=
  ⟨by decide, by decide,
    (C1_amended_details_fallback_local webkitDom 5 0 ⟨"block", "visible"⟩ (by decide)
          (by decide) rfl).mpr
      ⟨3, by decide, by decide, by decide, by decide⟩⟩

/-- One successful `enclosingShadowHost` step extends the host-chain
iteration. -/
theorem hostChainIter_succ_some (d : Dom) (g k e h : Nat)
    (hh : enclosingShadowHost d g e = some h) :
    hostChainIter d g (k + 1) e = hostChainIter d g k h := by
  simp [hostChainIter, hh]

/-- When no enclosing shadow host exists the host chain stops. -/
theorem hostChainIter_succ_none (d : Dom) (g k e : Nat)
    (hh : enclosingShadowHost d g e = none) :
    hostChainIter d g (k + 1) e = none := by
  simp [hostChainIter, hh]

/-- C5: `isInsideScope` is true exactly when the scope contains the element
itself or some element reached from it by iterating `enclosingShadowHost`
(within the loop's fuel). -/
theorem C5_isInsideScope_iff (d : Dom) (g f scope e : Nat) :
    (isInsideScope d g f scope (some e) = true ↔
      ∃ k, k < f ∧ ∃ x, hostChainIter d g k e = some x ∧
        containsNode d g scope x = true) := by
  induction f generalizing e with
  | zero =>
    rw [show isInsideScope d g 0 scope (some e) = false from rfl]
    simp
  | succ f ih =>
    constructor
    · intro hL
      rw [show isInsideScope d g (f + 1) scope (some e) =
            (containsNode d g scope e ||
              isInsideScope d g f scope (enclosingShadowHost d g e)) from rfl] at hL
      cases Bool.or_eq_true_iff.mp hL with
      | inl hC => exact ⟨0, Nat.succ_pos f, e, rfl, hC⟩
      | inr hR =>
        cases hH : enclosingShadowHost d g e with
        | none => rw [hH, isInsideScope_none] at hR; exact absurd hR (by simp)
        | some h =>
          rw [hH] at hR
          obtain ⟨k, hk, x, hx, hcx⟩ := (ih h).mp hR
          refine ⟨k + 1, by omega, x, ?_, hcx⟩
          rw [hostChainIter_succ_some d g k e h hH]
          exact hx
    · rintro ⟨k, hk, x, hx, hcx⟩
      rw [show isInsideScope d g (f + 1) scope (some e) =
            (containsNode d g scope e ||
              isInsideScope d g f scope (enclosingShadowHost d g e)) from rfl]
      cases k with
      | zero =>
        rw [show hostChainIter d g 0 e = some e from rfl] at hx
        cases hx
        simp [hcx]
      | succ k =>
        cases hH : enclosingShadowHost d g e with
        | none =>
          rw [hostChainIter_succ_none d g k e hH] at hx
          exact absurd hx (by simp)
        | some h =>
          rw [hostChainIter_succ_some d g k e h hH] at hx
          have hrec := (ih h).mpr ⟨k, by omega, x, hx, hcx⟩
          rw [hrec]
          simp

/-- `closestCrossShadow` returns none exactly when no element of the host
chain (within the loop's fuel) has a matching inclusive ancestor in its own
tree. -/
theorem closestCrossShadow_eq_none_iff (d : Dom) (g : Nat) (css : String) :
    ∀ f e, closestCrossShadow d g f (some e) css = none ↔
      ∀ k x, k < f → hostChainIter d g k e = some x → closest d g x css = none := by
  intro f
  induction f with
  | zero =>
    intro e
    rw [show closestCrossShadow d g 0 (some e) css = none from rfl]
    simp
  | succ f ih =>
    intro e
    rw [show closestCrossShadow d g (f + 1) (some e) css =
          (match closest d g e css with
           | some c => some c
           | none => closestCrossShadow d g f (enclosingShadowHost d g e) css) from rfl]
    cases hc : closest d g e css with
    | some c =>
      simp only []
      constructor
      · intro h; exact absurd h (by simp)
      · intro h
        exact absurd (h 0 e (Nat.succ_pos f) rfl) (by simp [hc])
    | none =>
      rw [show (match (none : Option Nat) with
            | some c => some c
            | none => closestCrossShadow d g f (enclosingShadowHost d g e) css) =
          closestCrossShadow d g f (enclosingShadowHost d g e) css from rfl]
      cases hH : enclosingShadowHost d g e with
      | none =>
        rw [closestCrossShadow_none]
        constructor
        · intro _
          intro k x hk hx
          cases k with
          | zero => cases hx; exact hc
          | succ k =>
            rw [hostChainIter_succ_none d g k e hH] at hx
            exact absurd hx (by simp)
        · intro _; rfl
      | some h =>
        rw [ih h]
        constructor
        · intro hall k x hk hx
          cases k with
          | zero => cases hx; exact hc
          | succ k =>
            rw [hostChainIter_succ_some d g k e h hH] at hx
            exact hall k x (by omega) hx
        · intro hall k x hk hx
          refine hall (k + 1) x (by omega) ?_
          rw [hostChainIter_succ_some d g k e h hH]
          exact hx

/-- C6: `closestCrossShadow` returns the element itself when it matches the
selector; when nothing matches in the local tree it escapes via
`enclosingShadowHost` and retries; and it returns none exactly when no
inclusive ancestor anywhere along the host chain matches. -/
theorem C6_closestCrossShadow_spec (d : Dom) (g f e : Nat) (css : String) :
    (d.matchesSel e css = true → closestCrossShadow d g (f + 1) (some e) css = some e) ∧
    (closest d g e css = none →
      closestCrossShadow d g (f + 1) (some e) css =
        closestCrossShadow d g f (enclosingShadowHost d g e) css) ∧
    (closestCrossShadow d g f (some e) css = none ↔
      ∀ k x, k < f → hostChainIter d g k e = some x → closest d g x css = none) := by
  refine ⟨?_, ?_, closestCrossShadow_eq_none_iff d g css f e⟩
  · intro h
    rw [show closestCrossShadow d g (f + 1) (some e) css =
          (match closest d g e css with
           | some c => some c
           | none => closestCrossShadow d g f (enclosingShadowHost d g e) css) from rfl]
    rw [closest_self d g e css h]
  · intro h
    rw [show closestCrossShadow d g (f + 1) (some e) css =
          (match closest d g e css with
           | some c => some c
           | none => closestCrossShadow d g f (enclosingShadowHost d g e) css) from rfl]
    rw [h]

/-- C6 witness: in `shadowDom`, element 3 matches the selector and is returned
itself; element 0 has no local match, so the search escapes to the shadow
host chain. -/
theorem C6_witness :
    shadowDom.matchesSel 3 "details,summary" = true ∧
      closestCrossShadow shadowDom 5 3 (some 3) "details,summary" = some 3 ∧
        closest shadowDom 5 0 "details,summary" = none ∧
          closestCrossShadow shadowDom 5 3 (some 0) "details,summary" =
            closestCrossShadow shadowDom 5 2 (enclosingShadowHost shadowDom 5 0)
              "details,summary" :=
  ⟨by decide, (C6_closestCrossShadow_spec shadowDom 5 2 3 "details,summary").1 (by decide),
    by decide, (C6_closestCrossShadow_spec shadowDom 5 2 0 "details,summary").2.1 (by decide)⟩

/-- With fuel at least the depth bound, the `parentNode` walk of
`enclosingShadowRootOrDocument` reaches the true root. -/
theorem rootNode_parent_none (d : Dom) (rank : Nat → Nat)
    (hP : ∀ n p, d.parentNode n = some p → rank p < rank n) :
    ∀ f n, rank n ≤ f → d.parentNode (rootNode d f n) = none := by
  intro f
  induction f with
  | zero =>
    intro n hn
    cases hpn : d.parentNode n with
    | none => rw [show rootNode d 0 n = n from rfl]; exact hpn
    | some p => exact absurd (hP n p hpn) (by omega)
  | succ f ih =>
    intro n hn
    cases hpn : d.parentNode n with
    | none => simp [rootNode, hpn]
    | some p =>
      rw [show rootNode d (f + 1) n =
            (match d.parentNode n with
             | some p => rootNode d f p
             | none => n) from rfl, hpn]
      exact ih p (by have := hP n p hpn; omega)

/-- C9: `enclosingShadowRootOrDocument` walks plain parent links to the
ultimate root (a node with no parent, given enough fuel for the acyclic
chain) and returns it exactly when it is a shadow-root fragment (11) or a
document (9); otherwise it returns none. -/
theorem C9_root_or_document (d : Dom) (rank : Nat → Nat) (g e : Nat)
    (hP : ∀ n p, d.parentNode n = some p → rank p < rank n) (hg : rank e ≤ g) :
    d.parentNode (rootNode d g e) = none ∧
      (enclosingShadowRootOrDocument d g e = some (rootNode d g e) ↔
        d.nodeType (rootNode d g e) = 11 ∨ d.nodeType (rootNode d g e) = 9) ∧
      (¬(d.nodeType (rootNode d g e) = 11 ∨ d.nodeType (rootNode d g e) = 9) →
        enclosingShadowRootOrDocument d g e = none) := by
  refine ⟨rootNode_parent_none d rank hP g e hg, ?_, ?_⟩
  · unfold enclosingShadowRootOrDocument
    by_cases h : d.nodeType (rootNode d g e) = 11 ∨ d.nodeType (rootNode d g e) = 9 <;>
      simp [h]
  · intro h
    unfold enclosingShadowRootOrDocument
    simp [h]

/-- C9 witness: in `shadowDom`, the root above element 0 is the shadow-root
fragment 1, which has no parent and is returned. -/
theorem C9_witness :
    shadowDomRank 0 ≤ 5 ∧
      shadowDom.parentNode (rootNode shadowDom 5 0) = none ∧
        enclosingShadowRootOrDocument shadowDom 5 0 = some (rootNode shadowDom 5 0) := by
  have hP : ∀ n p, shadowDom.parentNode n = some p → shadowDomRank p < shadowDomRank n := by
    intro n p h
    simp only [shadowDom, baseDom] at h
    split at h <;>
      first
        | (injection h with h; subst h; decide)
        | (exact absurd h (by simp))
  have h := C9_root_or_document shadowDom shadowDomRank 5 0 hP (by decide)
  exact ⟨by decide, h.1, h.2.1.mpr (by decide)⟩

/-- A `parentElement` link is in particular a `parentNode` link. -/
theorem parentElement_parentNode (d : Dom) (e p : Nat) (h : parentElement d e = some p) :
    d.parentNode e = some p := by
  unfold parentElement at h
  cases hpn : d.parentNode e with
  | none => rw [hpn] at h; exact absurd h (by simp)
  | some q =>
    rw [hpn] at h
    by_cases ht : d.nodeType q = 1 <;> simp [ht] at h
    rw [h]

/-- The climb to the topmost element never increases the depth rank. -/
theorem topmostElement_rank (d : Dom) (rank : Nat → Nat)
    (hP : ∀ n p, d.parentNode n = some p → rank p < rank n) :
    ∀ g e, rank (topmostElement d g e) ≤ rank e := by
  intro g
  induction g with
  | zero => intro e; exact le_refl _
  | succ g ih =>
    intro e
    rw [show topmostElement d (g + 1) e =
          (match parentElement d e with
           | some p => topmostElement d g p
           | none => e) from rfl]
    cases hpe : parentElement d e with
    | none => exact le_refl _
    | some p =>
      have hlt := hP e p (parentElement_parentNode d e p hpe)
      exact le_trans (ih p) (by omega)

/-- A `parentElementOrShadowHost` step strictly decreases the depth rank. -/
theorem parentElementOrShadowHost_rank (d : Dom) (rank : Nat → Nat)
    (hP : ∀ n p, d.parentNode n = some p → rank p < rank n)
    (hH : ∀ n pn h, d.parentNode n = some pn → d.host pn = some h → rank h < rank n)
    (t h : Nat) (hs : parentElementOrShadowHost d t = some h) : rank h < rank t := by
  unfold parentElementOrShadowHost at hs
  cases hpe : parentElement d t with
  | some p =>
    rw [hpe] at hs
    have hs' : some p = some h := hs
    injection hs' with hq
    subst hq
    exact hP t p (parentElement_parentNode d t p hpe)
  | none =>
    rw [hpe] at hs
    cases hpn : d.parentNode t with
    | none =>
      rw [hpn] at hs
      have hs' : (none : Option Nat) = some h := hs
      exact absurd hs' (by simp)
    | some pn =>
      rw [hpn] at hs
      have hs' : (if d.nodeType pn = 11 then d.host pn else none) = some h := hs
      by_cases ht : d.nodeType pn = 11
      · rw [if_pos ht] at hs'
        exact hH t pn h hpn hs'
      · rw [if_neg ht] at hs'
        exact absurd hs' (by simp)

/-- An `enclosingShadowHost` step strictly decreases the depth rank. -/
theorem enclosingShadowHost_rank (d : Dom) (rank : Nat → Nat)
    (hP : ∀ n p, d.parentNode n = some p → rank p < rank n)
    (hH : ∀ n pn h, d.parentNode n = some pn → d.host pn = some h → rank h < rank n)
    (g e h : Nat) (hs : enclosingShadowHost d g e = some h) : rank h < rank e :=
  lt_of_lt_of_le
    (parentElementOrShadowHost_rank d rank hP hH (topmostElement d g e) h hs)
    (topmostElement_rank d rank hP g e)

/-- The `isInsideScope` loop stabilizes once the fuel exceeds the depth rank. -/
theorem isInsideScope_stable (d : Dom) (rank : Nat → Nat) (g scope : Nat)
    (hP : ∀ n p, d.parentNode n = some p → rank p < rank n)
    (hH : ∀ n pn h, d.parentNode n = some pn → d.host pn = some h → rank h < rank n) :
    ∀ r e, rank e ≤ r → ∀ f fp, r < f → r < fp →
      isInsideScope d g f scope (some e) = isInsideScope d g fp scope (some e) := by
  intro r
  induction r with
  | zero =>
    intro e he f fp hf hfp
    obtain ⟨a, rfl⟩ : ∃ a, f = a + 1 := ⟨f - 1, by omega⟩
    obtain ⟨b, rfl⟩ : ∃ b, fp = b + 1 := ⟨fp - 1, by omega⟩
    rw [show isInsideScope d g (a + 1) scope (some e) =
          (containsNode d g scope e ||
            isInsideScope d g a scope (enclosingShadowHost d g e)) from rfl,
        show isInsideScope d g (b + 1) scope (some e) =
          (containsNode d g scope e ||
            isInsideScope d g b scope (enclosingShadowHost d g e)) from rfl]
    cases hE : enclosingShadowHost d g e with
    | none => rw [isInsideScope_none, isInsideScope_none]
    | some h =>
      exact absurd (enclosingShadowHost_rank d rank hP hH g e h hE) (by omega)
  | succ r ih =>
    intro e he f fp hf hfp
    obtain ⟨a, rfl⟩ : ∃ a, f = a + 1 := ⟨f - 1, by omega⟩
    obtain ⟨b, rfl⟩ : ∃ b, fp = b + 1 := ⟨fp - 1, by omega⟩
    rw [show isInsideScope d g (a + 1) scope (some e) =
          (containsNode d g scope e ||
            isInsideScope d g a scope (enclosingShadowHost d g e)) from rfl,
        show isInsideScope d g (b + 1) scope (some e) =
          (containsNode d g scope e ||
            isInsideScope d g b scope (enclosingShadowHost d g e)) from rfl]
    cases hE : enclosingShadowHost d g e with
    | none => rw [isInsideScope_none, isInsideScope_none]
    | some h =>
      have hrk := enclosingShadowHost_rank d rank hP hH g e h hE
      rw [ih h (by omega) a b (by omega) (by omega)]

/-- The `closestCrossShadow` loop stabilizes once the fuel exceeds the depth
rank. -/
theorem closestCrossShadow_stable (d : Dom) (rank : Nat → Nat) (g : Nat) (css : String)
    (hP : ∀ n p, d.parentNode n = some p → rank p < rank n)
    (hH : ∀ n pn h, d.parentNode n = some pn → d.host pn = some h → rank h < rank n) :
    ∀ r e, rank e ≤ r → ∀ f fp, r < f → r < fp →
      closestCrossShadow d g f (some e) css = closestCrossShadow d g fp (some e) css := by
  intro r
  induction r with
  | zero =>
    intro e he f fp hf hfp
    obtain ⟨a, rfl⟩ : ∃ a, f = a + 1 := ⟨f - 1, by omega⟩
    obtain ⟨b, rfl⟩ : ∃ b, fp = b + 1 := ⟨fp - 1, by omega⟩
    rw [show closestCrossShadow d g (a + 1) (some e) css =
          (match closest d g e css with
           | some c => some c
           | none => closestCrossShadow d g a (enclosingShadowHost d g e) css) from rfl,
        show closestCrossShadow d g (b + 1) (some e) css =
          (match closest d g e css with
           | some c => some c
           | none => closestCrossShadow d g b (enclosingShadowHost d g e) css) from rfl]
    cases hc : closest d g e css with
    | some c => rfl
    | none =>
      cases hE : enclosingShadowHost d g e with
      | none => rw [closestCrossShadow_none, closestCrossShadow_none]
      | some h =>
        exact absurd (enclosingShadowHost_rank d rank hP hH g e h hE) (by omega)
  | succ r ih =>
    intro e he f fp hf hfp
    obtain ⟨a, rfl⟩ : ∃ a, f = a + 1 := ⟨f - 1, by omega⟩
    obtain ⟨b, rfl⟩ : ∃ b, fp = b + 1 := ⟨fp - 1, by omega⟩
    rw [show closestCrossShadow d g (a + 1) (some e) css =
          (match closest d g e css with
           | some c => some c
           | none => closestCrossShadow d g a (enclosingShadowHost d g e) css) from rfl,
        show closestCrossShadow d g (b + 1) (some e) css =
          (match closest d g e css with
           | some c => some c
           | none => closestCrossShadow d g b (enclosingShadowHost d g e) css) from rfl]
    cases hc : closest d g e css with
    | some c => rfl
    | none =>
      cases hE : enclosingShadowHost d g e with
      | none => rw [closestCrossShadow_none, closestCrossShadow_none]
      | some h =>
        have hrk := enclosingShadowHost_rank d rank hP hH g e h hE
        rw [ih h (by omega) a b (by omega) (by omega)]

/-- C8: when parent links and shadow-host jumps strictly decrease a depth
rank (acyclicity), the `isInsideScope` and `closestCrossShadow` loops
terminate: beyond the rank bound the fuelled loops no longer change their
result, for any fuel. -/
theorem C8_loops_terminate (d : Dom) (rank : Nat → Nat) (g f fp scope e : Nat) (css : String)
    (hP : ∀ n p, d.parentNode n = some p → rank p < rank n)
    (hH : ∀ n pn h, d.parentNode n = some pn → d.host pn = some h → rank h < rank n)
    (hf : rank e < f) (hfp : rank e < fp) :
    isInsideScope d g f scope (some e) = isInsideScope d g fp scope (some e) ∧
      closestCrossShadow d g f (some e) css = closestCrossShadow d g fp (some e) css :=
  ⟨isInsideScope_stable d rank g scope hP hH (rank e) e (le_refl _) f fp hf hfp,
    closestCrossShadow_stable d rank g css hP hH (rank e) e (le_refl _) f fp hf hfp⟩

/-- C8 witness: on the one-element detached state the loops agree at any two
sufficient fuels. -/
theorem C8_witness :
    isInsideScope baseDom 3 1 0 (some 0) = isInsideScope baseDom 3 2 0 (some 0) ∧
      closestCrossShadow baseDom 3 1 (some 0) "div" =
        closestCrossShadow baseDom 3 2 (some 0) "div" :=
  C8_loops_terminate baseDom (fun _ => 0) 3 1 2 0 0 "div"
    (fun n p h => by simp [baseDom] at h)
    (fun n pn h hpn hh => by simp [baseDom] at hpn)
    (by decide) (by decide)

/-- The host state with element `e`'s own `visibility` style replaced by
`vis` and its own `checkVisibility` oracle answer replaced by `b`; every
other observation, including every `display` value, is unchanged. -/
def maskVisibility (d : Dom) (e : Nat) (b : Bool) (vis : String) : Dom :=
  { d with
    checkVisibility := fun n => if n = e then b else d.checkVisibility n
    styleMap := fun n p =>
      if n = e ∧ p = none then ⟨(d.styleMap n p).display, vis⟩ else d.styleMap n p }

theorem mask_nodeType (d : Dom) (e : Nat) (b : Bool) (vis : String) :
    (maskVisibility d e b vis).nodeType = d.nodeType := rfl

theorem mask_childNodes (d : Dom) (e : Nat) (b : Bool) (vis : String) :
    (maskVisibility d e b vis).childNodes = d.childNodes := rfl

theorem mask_ownerDocument (d : Dom) (e : Nat) (b : Bool) (vis : String) :
    (maskVisibility d e b vis).ownerDocument = d.ownerDocument := rfl

theorem mask_hasDefaultView (d : Dom) (e : Nat) (b : Bool) (vis : String) :
    (maskVisibility d e b vis).hasDefaultView = d.hasDefaultView := rfl

theorem mask_cva (d : Dom) (e : Nat) (b : Bool) (vis : String) :
    (maskVisibility d e b vis).checkVisibilityAvailable = d.checkVisibilityAvailable := rfl

theorem mask_matchesSel (d : Dom) (e : Nat) (b : Bool) (vis : String) :
    (maskVisibility d e b vis).matchesSel = d.matchesSel := rfl

theorem mask_nodeName (d : Dom) (e : Nat) (b : Bool) (vis : String) :
    (maskVisibility d e b vis).nodeName = d.nodeName := rfl

theorem mask_detailsOpen (d : Dom) (e : Nat) (b : Bool) (vis : String) :
    (maskVisibility d e b vis).detailsOpen = d.detailsOpen := rfl

theorem mask_boundingRect (d : Dom) (e : Nat) (b : Bool) (vis : String) :
    (maskVisibility d e b vis).boundingRect = d.boundingRect := rfl

theorem mask_parentElement (d : Dom) (e : Nat) (b : Bool) (vis : String) :
    parentElement (maskVisibility d e b vis) = parentElement d := rfl

theorem mask_isVisibleTextNode (d : Dom) (e : Nat) (b : Bool) (vis : String) (n : Nat) :
    isVisibleTextNode (maskVisibility d e b vis) n = isVisibleTextNode d n := rfl

theorem mask_checkVisibility_ne (d : Dom) (e : Nat) (b : Bool) (vis : String) (x : Nat)
    (hx : x ≠ e) : (maskVisibility d e b vis).checkVisibility x = d.checkVisibility x := by
  simp [maskVisibility, hx]

/-- Masking one element's visibility data does not change selector walks. -/
theorem mask_closest (d : Dom) (e : Nat) (b : Bool) (vis : String) :
    ∀ g x css, closest (maskVisibility d e b vis) g x css = closest d g x css := by
  intro g
  induction g with
  | zero => intro x css; rfl
  | succ g ih =>
    intro x css
    simp only [closest, mask_matchesSel, mask_parentElement]
    by_cases hm : d.matchesSel x css
    · simp [hm]
    · simp only [hm, Bool.false_eq_true, if_false]
      cases parentElement d x with
      | none => rfl
      | some p => exact ih p css

/-- Masking element `e` leaves the computed style of any other element
unchanged. -/
theorem mask_getStyle_ne (d : Dom) (e : Nat) (b : Bool) (vis : String) (x : Nat)
    (hx : x ≠ e) (p : Option String) :
    getElementComputedStyle (maskVisibility d e b vis) x p =
      getElementComputedStyle d x p := by
  unfold getElementComputedStyle
  rw [mask_ownerDocument]
  cases d.ownerDocument x with
  | none => rfl
  | some doc =>
    rw [mask_hasDefaultView]
    by_cases hv : d.hasDefaultView doc <;> simp [hv, maskVisibility, hx]

/-- Masking element `e` keeps its computed display and replaces only its
visibility. -/
theorem mask_getStyle_e_some (d : Dom) (e : Nat) (b : Bool) (vis : String) (s : Style)
    (hres : getElementComputedStyle d e none = some s) :
    getElementComputedStyle (maskVisibility d e b vis) e none = some ⟨s.display, vis⟩ := by
  unfold getElementComputedStyle at hres ⊢
  rw [mask_ownerDocument]
  cases hod : d.ownerDocument e with
  | none => rw [hod] at hres; exact absurd hres (by simp)
  | some doc =>
    rw [hod] at hres
    have hres' : (if d.hasDefaultView doc then some (d.styleMap e none) else none) =
        some s := hres
    show (if d.hasDefaultView doc then
        some ((maskVisibility d e b vis).styleMap e none) else none) =
      some ⟨s.display, vis⟩
    by_cases hv : d.hasDefaultView doc
    · rw [if_pos hv] at hres' ⊢
      injection hres' with hres'
      simp [maskVisibility, ← hres']
    · rw [if_neg hv] at hres'
      exact absurd hres' (by simp)

/-- Masking does not make an unresolvable style resolvable. -/
theorem mask_getStyle_e_none (d : Dom) (e : Nat) (b : Bool) (vis : String)
    (hres : getElementComputedStyle d e none = none) :
    getElementComputedStyle (maskVisibility d e b vis) e none = none := by
  unfold getElementComputedStyle at hres ⊢
  rw [mask_ownerDocument]
  cases hod : d.ownerDocument e with
  | none => rfl
  | some doc =>
    rw [hod] at hres
    have hres' : (if d.hasDefaultView doc then some (d.styleMap e none) else none) =
        none := hres
    show (if d.hasDefaultView doc then
        some ((maskVisibility d e b vis).styleMap e none) else none) = none
    by_cases hv : d.hasDefaultView doc
    · rw [if_pos hv] at hres'; exact absurd hres' (by simp)
    · rw [if_neg hv]

/-- Masking element `e` leaves the style-visibility verdict of any other
element unchanged. -/
theorem mask_styleCheck_ne (d : Dom) (e : Nat) (b : Bool) (vis : String) (g x : Nat)
    (hx : x ≠ e) (s : Style) :
    isElementStyleVisibilityVisible (maskVisibility d e b vis) g x (some s) =
      isElementStyleVisibilityVisible d g x (some s) := by
  simp only [isElementStyleVisibilityVisible, mask_cva,
    mask_checkVisibility_ne d e b vis x hx, mask_closest, mask_nodeName, mask_detailsOpen]

/-- Pointwise-equal predicates give equal `List.any` results. -/
theorem list_any_congr {l : List Nat} {p q : Nat → Bool} (h : ∀ x ∈ l, p x = q x) :
    l.any p = l.any q := by
  induction l with
  | nil => rfl
  | cons a t ih =>
    simp only [List.any_cons, h a (by simp)]
    rw [ih fun x hx => h x (by simp [hx])]

/-- Masking the visibility data of a `display:contents` element changes no
visibility verdict: its own `visibility` and `checkVisibility` answers are
never consulted. -/
theorem mask_isElementVisible (d : Dom) (e : Nat) (b : Bool) (vis : String) (g : Nat)
    (hdisp : (d.styleMap e none).display = "contents") :
    ∀ f x, isElementVisible (maskVisibility d e b vis) g f x = isElementVisible d g f x := by
  intro f
  induction f with
  | zero => intro x; rfl
  | succ f ih =>
    intro x
    by_cases hx : x = e
    · subst hx
      simp only [isElementVisible]
      cases hres : getElementComputedStyle d x none with
      | none => rw [mask_getStyle_e_none d x b vis hres]
      | some s =>
        have hsd : s.display = "contents" := by
          have h2 := getElementComputedStyle_eq_some d x none s hres
          rw [h2]
          exact hdisp
        rw [mask_getStyle_e_some d x b vis s hres]
        try dsimp only
        rw [if_pos hsd, if_pos hsd, mask_childNodes]
        apply list_any_congr
        intro c hc
        simp only [mask_nodeType, ih c, mask_isVisibleTextNode]
    · simp only [isElementVisible]
      rw [mask_getStyle_ne d e b vis x hx none]
      cases hres : getElementComputedStyle d x none with
      | none => rfl
      | some s =>
        try dsimp only
        by_cases hdc : s.display = "contents"
        · rw [if_pos hdc, if_pos hdc, mask_childNodes]
          apply list_any_congr
          intro c hc
          simp only [mask_nodeType, ih c, mask_isVisibleTextNode]
        · rw [if_neg hdc, if_neg hdc, mask_styleCheck_ne d e b vis g x hx s]
          cases hchk : isElementStyleVisibilityVisible d g x (some s) with
          | false => rfl
          | true =>
            try dsimp only
            rw [mask_boundingRect, mask_childNodes]
            by_cases hqc : (!(decide (0 < (d.boundingRect x).width) &&
                decide (0 < (d.boundingRect x).height)) && s.display == "inline" &&
                decide (0 < (d.boundingRect x).height)) = true
            · rw [if_pos hqc, if_pos hqc]
              apply list_any_congr
              intro c hc
              simp only [mask_nodeType]
              by_cases hce : c = e
              · subst hce
                cases hres2 : getElementComputedStyle d c none with
                | none => rw [mask_getStyle_e_none d c b vis hres2]
                | some cs =>
                  rw [mask_getStyle_e_some d c b vis cs hres2]
                  try dsimp only
                  rw [ih c]
              · rw [mask_getStyle_ne d e b vis c hce none]
                cases getElementComputedStyle d c none with
                | none => rfl
                | some cs =>
                  try dsimp only
                  rw [ih c]
            · rw [if_neg hqc, if_neg hqc]

/-- C10: for an element whose resolved display is `contents`,
`isElementVisible` never consults the style-visibility check for it:
replacing the element's own `visibility` value and its own `checkVisibility`
oracle answer changes no visibility verdict, and a text child with a
positive range box forces a true verdict regardless of those values. -/
theorem C10_contents_skips_style_check (d : Dom) (e : Nat) (b : Bool) (vis : String)
    (g f : Nat) (s : Style)
    (hs : getElementComputedStyle d e none = some s) (hd : s.display = "contents") :
    (∀ x, isElementVisible (maskVisibility d e b vis) g f x = isElementVisible d g f x) ∧
    (∀ c, c ∈ d.childNodes e → d.nodeType c = 3 → isVisibleTextNode d c = true →
      isElementVisible d g (f + 1) e = true) := by
  have hdisp : (d.styleMap e none).display = "contents" := by
    have h2 := getElementComputedStyle_eq_some d e none s hs
    rw [← h2]
    exact hd
  refine ⟨fun x => mask_isElementVisible d e b vis g hdisp f x, ?_⟩
  intro c hc ht hv
  simp [isElementVisible, hs, hd, List.any_eq_true]
  exact ⟨c, hc, Or.inr ⟨ht, hv⟩⟩

/-- C10 witness: element 0 of `c10Dom` has `display:contents`,
`visibility:hidden` and a false `checkVisibility` answer, yet its text child
of positive extent makes it visible. -/
theorem C10_witness :
    (c10Dom.styleMap 0 none).visibility = "hidden" ∧
      c10Dom.checkVisibility 0 = false ∧
        getElementComputedStyle c10Dom 0 none = some ⟨"contents", "hidden"⟩ ∧
          isElementVisible c10Dom 3 1 0 = true :=
  ⟨by decide, by decide, by decide,
    (C10_contents_skips_style_check c10Dom 0 true "visible" 3 0 ⟨"contents", "hidden"⟩
        (by decide) rfl).2 1 (by decide) (by decide) (by decide)⟩

end DomUtils
